import Mathlib

/-!
Shallow embedding of the validation selection / skip-resolution /
orchestration / status-query pipeline of `validations_libs/validation_actions.py`
(class `ValidationActions`), together with the helper collaborators it calls.

Helpers that live outside this repository's sources
(`validations_libs.utils.parse_all_validations_on_disk`,
`validations_libs.utils.get_validations_playbook`,
`validations_libs.validation_logs.*`) are modelled from the spec; every
such definition is marked `Modelled from the spec:` in its doc comment.

Python truthiness of the optional string / list / dict arguments is made
explicit through the `pyTruthy*` helpers, Python's substring operator
`x in y` through `pyIn`, and Python's `str.split` on a one-character
separator through `splitChar` (structurally recursive over the character
list, so that concrete instances reduce in the kernel).
-/

namespace OvaSpec

/-- Split a character list at every occurrence of `c`; `acc` holds the
(reversed) current piece. -/
def splitOnCharAux (c : Char) : List Char → List Char → List (List Char)
  | [], acc => [acc.reverse]
  | x :: xs, acc =>
    if x = c then acc.reverse :: splitOnCharAux c xs []
    else splitOnCharAux c xs (x :: acc)

/-- Python's `s.split(c)` for a one-character separator `c` (the only
separators the source uses: `','`, `'.'`, `'/'`). -/
def splitChar (c : Char) (s : String) : List String :=
  (splitOnCharAux c s.data []).map String.mk

/-- `startsWithChars needle hay`: `needle` is an initial segment of `hay`. -/
def startsWithChars : List Char → List Char → Bool
  | [], _ => true
  | _ :: _, [] => false
  | a :: as, b :: bs => a = b && startsWithChars as bs

/-- `occursChars needle hay`: `needle` occurs contiguously inside `hay`. -/
def occursChars (needle : List Char) : List Char → Bool
  | [] => needle.isEmpty
  | c :: rest => startsWithChars needle (c :: rest) || occursChars needle rest

/-- Python's substring operator `needle in hay`. -/
def pyIn (needle hay : String) : Bool :=
  occursChars needle.data hay.data

/-- Python truthiness of an optional string (`None` and `''` are falsy). -/
def pyTruthyStr : Option String → Bool
  | none => false
  | some s => !(s = "")

/-- Python truthiness of an optional list (`None` and `[]` are falsy). -/
def pyTruthyList : Option (List String) → Bool
  | none => false
  | some l => !l.isEmpty

/-- One entry of the `skip_list` mapping:
`{'hosts': ..., 'reason': ..., 'lp': ...}`. -/
structure SkipRule where
  hosts : Option String
  reason : Option String := none
  lp : Option String := none
deriving DecidableEq, Repr

/-- The `skip_list` dict, keyed by playbook (unit) name. -/
abbrev SkipList := List (String × SkipRule)

/-- `ValidationActions._skip_hosts`, after the `skip_list[playbook]` lookup:
given the rule's `hosts` field and the user `limit_hosts`, return the
effective host limit, or `none` when the validation is skipped on ALL hosts.
Faithful to the source:

  hosts = skip_list[playbook].get('hosts')
  if hosts == 'ALL' or hosts is None: return None
  _hosts = ['!{}'.format(hosts)]
  if limit_hosts:
      _hosts.extend([limit for limit in limit_hosts.split(',')
                     if hosts not in limit])
  return ','.join(_hosts)
-/
def skip_hosts (hosts : Option String) (limit_hosts : Option String) : Option String :=
  match hosts with
  | none => none
  | some h =>
    if h = "ALL" then none
    else
      let base := ["!" ++ h]
      let extra :=
        match limit_hosts with
        | none => []
        | some L =>
          if L = "" then []
          else (splitChar ',' L).filter (fun limit => !(pyIn h limit))
      some (String.intercalate "," (base ++ extra))

/-- `ValidationActions._skip_playbook`: returns `(playbook?, hosts?)`.
`(some p, hs)` means run playbook `p` with limit `hs`; `(none, _)` means the
playbook is skipped entirely. Faithful to the source:

  if skip_list:
      if playbook in skip_list.keys():
          _hosts = self._skip_hosts(skip_list, playbook, limit_hosts)
          if _hosts: return playbook, _hosts
          else: return None, _hosts
  return playbook, limit_hosts
-/
def skip_playbook (skip_list : Option SkipList) (playbook : String)
    (limit_hosts : Option String) : Option String × Option String :=
  match skip_list with
  | none => (some playbook, limit_hosts)
  | some sl =>
    if sl.isEmpty then (some playbook, limit_hosts)
    else
      match sl.lookup playbook with
      | none => (some playbook, limit_hosts)
      | some rule =>
        let hs := skip_hosts rule.hosts limit_hosts
        if pyTruthyStr hs then (some playbook, hs) else (none, hs)

/-- A validation unit as the catalog exposes it (`id`, `groups`). -/
structure VUnit where
  id : String
  groups : List String
deriving DecidableEq, Repr

/-- The on-disk catalog of validation units. -/
abbrev Catalog := List VUnit

/-- Modelled from the spec: `validations_libs.utils.parse_all_validations_on_disk`
(not in this repository's sources) — "include every unit whose group set
intersects `groups`". -/
def parse_all_validations_on_disk (catalog : Catalog) (groups : List String) :
    List VUnit :=
  catalog.filter (fun u => u.groups.any (fun g => groups.contains g))

/-- Modelled from the spec: `validations_libs.utils.get_validations_playbook`
(not in this repository's sources) — "resolve each requested name against the
catalog", yielding one playbook file `<id>.yaml` per unit whose identifier is
among the requested names. -/
def get_validations_playbook (catalog : Catalog) (names : List String) :
    List String :=
  (catalog.filter (fun u => names.contains u.id)).map (fun u => u.id ++ ".yaml")

/-- `os.path.splitext(s)[0]`: drop the last `.`-separated extension. -/
def splitext_root (s : String) : String :=
  let parts := splitChar '.' s
  if parts.length ≤ 1 then s else String.intercalate "." parts.dropLast

/-- `os.path.basename`: the part after the last `/`. -/
def basename (s : String) : String :=
  (splitChar '/' s).getLastD s

/-- `os.path.basename(os.path.splitext(play)[0])`, the playbook's unit name
as `run_validations` computes it. -/
def play_name (p : String) : String :=
  basename (splitext_root p)

/-- The structural errors `run_validations` raises (`RuntimeError`s). -/
inductive RunError where
  | notFound (unknown : List String) (dir : String)
  | noValidations
deriving DecidableEq, Repr

/-- Python's `str` of a list of strings, as used inside `.format`. -/
def pyListRepr (l : List String) : String :=
  "[" ++ String.intercalate ", " (l.map (fun s => "'" ++ s ++ "'")) ++ "]"

/-- The message each `RuntimeError` carries, faithful to the two
`raise RuntimeError(...)` sites of `run_validations`. -/
def RunError.message : RunError → String
  | .notFound unknown dir =>
      "Validation " ++ pyListRepr unknown ++ " not found in " ++ dir ++ "."
  | .noValidations => "No validations found"

/-- `set(validation_name) - set(p)` as `run_validations` builds the unknown
list (set-valued: only membership is observable). -/
def pySetDiff (a b : List String) : List String :=
  (a.filter (fun x => !b.contains x)).dedup

/-- The playbook-selection prefix of `run_validations`:

  if group: playbooks = [v.id + '.yaml' for v in parse_all_validations_on_disk(dir, group)]
  elif validation_name:
      playbooks = get_validations_playbook(dir, validation_name, group)
      if not playbooks or len(validation_name) != len(playbooks):
          p = [basename(splitext(play)[0]) for play in playbooks]
          raise RuntimeError("Validation {} not found in {}.".format(
              list(set(validation_name) - set(p)), validations_dir))
  else: raise RuntimeError("No validations found")
-/
def select_playbooks (catalog : Catalog) (validation_name group : Option (List String))
    (validations_dir : String) : Except RunError (List String) :=
  if pyTruthyList group then
    .ok ((parse_all_validations_on_disk catalog (group.getD [])).map
      (fun u => u.id ++ ".yaml"))
  else if pyTruthyList validation_name then
    let names := validation_name.getD []
    let playbooks := get_validations_playbook catalog names
    if playbooks.isEmpty || !(names.length = playbooks.length) then
      let p := playbooks.map play_name
      .error (.notFound (pySetDiff names p) validations_dir)
    else
      .ok playbooks
  else
    .error .noValidations

/-- One entry of the `results` list `run_validations` accumulates. -/
structure RunRecord where
  playbook : String
  rc_code : Int
  status : String
  validations : String
  uuid : String
deriving DecidableEq, Repr

/-- The environment the orchestration loop runs against: the catalog, the
external engine (`Ansible.run`, fed the playbook and the effective host
limit, returning `(playbook, rc, status)`), the run-identifier generator of
`create_artifacts_dir` (the `k`-th executed unit of the invocation gets
`uuidGen k`), and the Result Aggregator's `ValidationLogs.get_results`. -/
structure Env (ρ : Type) where
  catalog : Catalog
  engine : String → Option String → String × Int × String
  uuidGen : Nat → String
  getResults : List String → List ρ

/-- The record appended for an executed playbook, from the engine's
`(_playbook, _rc, _status)` and the generated run identifier:
`{'playbook': _playbook, 'rc_code': _rc, 'status': _status,
'validations': _playbook.split('.')[0], 'UUID': validation_uuid}`. -/
def mkRecord {ρ : Type} (env : Env ρ) (p : String) (hs : Option String) (k : Nat) :
    RunRecord :=
  let out := env.engine p hs
  { playbook := out.1
    rc_code := out.2.1
    status := out.2.2
    validations := (splitChar '.' out.1).headD out.1
    uuid := env.uuidGen k }

/-- The per-playbook loop of `run_validations`, instrumented to also return
the list of engine invocations `(playbook, effective limit)` it performs;
`k` counts the executed units (each execution allocates the next run
identifier). -/
def dispatch {ρ : Type} (env : Env ρ) (skip_list : Option SkipList)
    (limit_hosts : Option String) (playbooks : List String) (k : Nat) :
    List RunRecord × List (String × Option String) :=
  match playbooks with
  | [] => ([], [])
  | p :: rest =>
    let s := skip_playbook skip_list (play_name p) limit_hosts
    if pyTruthyStr s.1 then
      let r := mkRecord env p s.2 k
      let tail := dispatch env skip_list limit_hosts rest (k + 1)
      (r :: tail.1, (p, s.2) :: tail.2)
    else
      dispatch env skip_list limit_hosts rest k

/-- `run_validations`: select, skip-resolve, dispatch; return the raw run
records when `run_async`, otherwise the Result Aggregator's parsed results
for the generated run identifiers. -/
def run_validations {ρ : Type} (env : Env ρ) (validation_name group : Option (List String))
    (validations_dir : String) (limit_hosts : Option String) (run_async : Bool)
    (skip_list : Option SkipList) : Except RunError (List RunRecord ⊕ List ρ) :=
  match select_playbooks env.catalog validation_name group validations_dir with
  | .error e => .error e
  | .ok playbooks =>
    let results := (dispatch env skip_list limit_hosts playbooks 0).1
    if run_async then .ok (.inl results)
    else .ok (.inr (env.getResults (results.map (fun r => r.uuid))))

/-- Decidable error test on `Except`. -/
def isError {ε α : Type} : Except ε α → Bool
  | .error _ => true
  | .ok _ => false

instance exceptDecEq {ε α : Type} [DecidableEq ε] [DecidableEq α] :
    DecidableEq (Except ε α) := fun x y =>
  match x, y with
  | .error a, .error b =>
    if h : a = b then .isTrue (by rw [h])
    else .isFalse (by intro hc; cases hc; exact h rfl)
  | .error _, .ok _ => .isFalse (by intro hc; cases hc)
  | .ok _, .error _ => .isFalse (by intro hc; cases hc)
  | .ok a, .ok b =>
    if h : a = b then .isTrue (by rw [h])
    else .isFalse (by intro hc; cases hc; exact h rfl)

/-- Modelled from the spec: the per-host part of a task record in an
Execution Log — the per-host outcome status (§3 "task records (task name,
per-host outcome status, raw engine result payload)") together with the raw
engine result payload (kept opaque as a string). The whole value is what
`task['hosts'][host]` denotes. -/
structure HostResult where
  outcome : String
  payload : String
deriving DecidableEq, Repr

/-- Modelled from the spec: one task record of an Execution Log — `name`,
task-level `status`, and the `hosts` mapping from host name to raw per-host
result. -/
structure TaskRecord where
  name : String
  status : String
  hosts : List (String × HostResult)
deriving DecidableEq, Repr

/-- Modelled from the spec: one loaded Execution Log, as `ValidationLog`
exposes it — its structural-validity flag (`is_valid_format`) and its task
records (`get_tasks_data`). -/
structure VLog where
  valid : Bool
  tasks : List TaskRecord
deriving DecidableEq, Repr

/-- Modelled from the spec: the Log Store's two lookup shapes used by
`get_status` (`get_logfile_by_validation`, `get_logfile_by_uuid`). -/
structure LogStore where
  byValidation : String → List VLog
  byUuid : String → List VLog

/-- The error `get_status` raises when called with neither identifier. -/
inductive StatusError where
  | missingId
deriving DecidableEq, Repr

/-- One output row of `get_status`: `(task name, host, status, task_data)`. -/
abbrev StatusRow := String × String × String × HostResult

/-- The row-building loop of `get_status`, faithful to the source:

  for log in logs:
      vlog = ValidationLog(logfile=log)
      if vlog.is_valid_format():
          for task in vlog.get_tasks_data:
              if task['status'] == status:
                  for host in task['hosts']:
                      values.append((task['name'], host, task['status'],
                                     task['hosts'][host]))
-/
def status_rows (logs : List VLog) (status : String) : List StatusRow :=
  (logs.filter (fun log => log.valid)).flatMap (fun log =>
    (log.tasks.filter (fun task => task.status = status)).flatMap (fun task =>
      task.hosts.map (fun h => (task.name, h.1, task.status, h.2))))

/-- `ValidationActions.get_status`: pick the logs by validation id or by
uuid (raising when neither is supplied), then build the filtered rows. -/
def get_status (store : LogStore) (validation_id uuid : Option String)
    (status : String) : Except StatusError (List String × List StatusRow) :=
  if pyTruthyStr validation_id then
    .ok (["name", "host", "status", "task_data"],
      status_rows (store.byValidation (validation_id.getD "")) status)
  else if pyTruthyStr uuid then
    .ok (["name", "host", "status", "task_data"],
      status_rows (store.byUuid (uuid.getD "")) status)
  else
    .error .missingId

/-- The skip resolver as the spec's words state it (for comparison with
`skip_hosts`): "append every token that does not already *equal* `h`". -/
def spec_skip_resolve (h : String) (L : String) : String :=
  String.intercalate "," (("!" ++ h) :: (splitChar ',' L).filter (fun t => !(t = h)))

/-- The selector as the spec's words state it for the both-names-and-groups
case (for comparison with `select_playbooks`): "union semantics: a unit
matches if selected by name OR by group". -/
def spec_select_union (catalog : Catalog) (names groups : List String) :
    List String :=
  (catalog.filter (fun u =>
    names.contains u.id || u.groups.any (fun g => groups.contains g))).map
    (fun u => u.id ++ ".yaml")

/-- The status rows as the spec's words state them (for comparison with
`status_rows`): one row per task and host whose *per-host outcome* equals
the status filter. -/
def spec_status_rows (logs : List VLog) (status : String) : List StatusRow :=
  (logs.filter (fun log => log.valid)).flatMap (fun log =>
    log.tasks.flatMap (fun task =>
      (task.hosts.filter (fun h => h.2.outcome = status)).map
        (fun h => (task.name, h.1, task.status, h.2))))

/-- The kept tokens of the user limit, as `_skip_hosts` filters them. -/
def kept_tokens (h L : String) : List String :=
  (splitChar ',' L).filter (fun t => !(pyIn h t))

/-- Sample task for the `get_status` analysis: task-level status `FAILED`,
one host that failed and one host that passed. -/
def sampleTask : TaskRecord :=
  ⟨"t", "FAILED", [("h1", ⟨"FAILED", "p1"⟩), ("h2", ⟨"PASSED", "p2"⟩)]⟩

/-- Sample valid-format log holding `sampleTask`. -/
def sampleLog : VLog := ⟨true, [sampleTask]⟩

/-- Sample log store: every validation id maps to `[sampleLog]`. -/
def sampleStore : LogStore := ⟨fun _ => [sampleLog], fun _ => []⟩

/-- Sample environment for witnesses: one unit `foo` in group `g`, an engine
that always reports return code 2 and status `failed`, sequential run
identifiers, and a result aggregator that returns the identifier count. -/
def sampleEnv : Env Nat :=
  ⟨[⟨"foo", ["g"]⟩], fun p _ => (p, 2, "failed"), fun k => "uuid" ++ toString k,
    fun l => [l.length]⟩

end OvaSpec

namespace OvaSpec

/-- Claim C1 (corrected), counterexample: for rule host `cloud1` and user
limit `cloud10`, the token `cloud10` differs from `cloud1` yet is dropped:
the code returns `!cloud1` where the claim predicts `!cloud1,cloud10`. -/
theorem skip_hosts_equality_counterexample :
    skip_hosts (some "cloud1") (some "cloud10") = some "!cloud1"
    ∧ spec_skip_resolve "cloud1" "cloud10" = "!cloud1,cloud10"
    ∧ ("cloud10" : String) ≠ "cloud1"
    ∧ skip_hosts (some "cloud1") (some "cloud10")
        ≠ some (spec_skip_resolve "cloud1" "cloud10") := by
  refine ⟨by decide, by decide, by decide, by decide⟩

/-- Claim C1 (amended): for a skip rule with specific host `h` and a
supplied user limit `L`, the resolver returns the comma-join of `!h`
followed by exactly those tokens of `L` that do *not contain `h` as a
substring* (not merely those different from `h`); the kept tokens are a
subsequence of `L`'s tokens, so order is preserved. -/
theorem skip_hosts_amended (h L : String) (hALL : h ≠ "ALL") (hL : L ≠ "") :
    skip_hosts (some h) (some L)
        = some (String.intercalate "," (("!" ++ h) :: kept_tokens h L))
    ∧ (kept_tokens h L).Sublist (splitChar ',' L)
    ∧ (∀ t, t ∈ kept_tokens h L ↔ (t ∈ splitChar ',' L ∧ pyIn h t = false)) := by
  refine ⟨?_, List.filter_sublist _, ?_⟩
  · simp [skip_hosts, kept_tokens, hALL, hL]
  · intro t
    simp [kept_tokens, List.mem_filter]

/-- Witness for `skip_hosts_amended` at the spec's own example
(`h = cloud1`, `L = cloud,cloud1,!cloud2`). -/
theorem skip_hosts_amended_witness :
    ("cloud1" : String) ≠ "ALL"
    ∧ ("cloud,cloud1,!cloud2" : String) ≠ ""
    ∧ (skip_hosts (some "cloud1") (some "cloud,cloud1,!cloud2")
        = some (String.intercalate ","
            (("!" ++ "cloud1") :: kept_tokens "cloud1" "cloud,cloud1,!cloud2"))
      ∧ (kept_tokens "cloud1" "cloud,cloud1,!cloud2").Sublist
          (splitChar ',' "cloud,cloud1,!cloud2")
      ∧ (∀ t, t ∈ kept_tokens "cloud1" "cloud,cloud1,!cloud2"
          ↔ (t ∈ splitChar ',' "cloud,cloud1,!cloud2" ∧ pyIn "cloud1" t = false))) :=
  ⟨by decide, by decide,
    skip_hosts_amended "cloud1" "cloud,cloud1,!cloud2" (by decide) (by decide)⟩

/-- Claim C10 (confirmed): in `_skip_hosts`, with specific rule host `h` and
user limit `L`, every token of `L` that contains `h` as a substring — not
only tokens equal to `h` — is absent from the tokens appended after `!h`. -/
theorem skip_hosts_drops_substring_tokens (h L t : String)
    (hALL : h ≠ "ALL") (hL : L ≠ "")
    (ht : t ∈ splitChar ',' L) (hin : pyIn h t = true) :
    skip_hosts (some h) (some L)
        = some (String.intercalate "," (("!" ++ h) :: kept_tokens h L))
    ∧ t ∉ kept_tokens h L := by
  refine ⟨by simp [skip_hosts, kept_tokens, hALL, hL], ?_⟩
  intro hmem
  rcases (List.mem_filter).mp hmem with ⟨-, hfalse⟩
  simp [hin] at hfalse

/-- Witness for `skip_hosts_drops_substring_tokens`: with `h = cloud1`, the
`!`-prefixed token `!cloud1` and the longer host name `cloud10` are both
dropped. -/
theorem skip_hosts_drops_substring_tokens_witness :
    ("cloud1" : String) ≠ "ALL"
    ∧ ("cloud10,!cloud1,other" : String) ≠ ""
    ∧ "cloud10" ∈ splitChar ',' "cloud10,!cloud1,other"
    ∧ pyIn "cloud1" "cloud10" = true
    ∧ "!cloud1" ∈ splitChar ',' "cloud10,!cloud1,other"
    ∧ pyIn "cloud1" "!cloud1" = true
    ∧ "cloud10" ∉ kept_tokens "cloud1" "cloud10,!cloud1,other"
    ∧ "!cloud1" ∉ kept_tokens "cloud1" "cloud10,!cloud1,other" :=
  ⟨by decide, by decide, by decide, by decide, by decide, by decide,
    (skip_hosts_drops_substring_tokens "cloud1" "cloud10,!cloud1,other" "cloud10"
      (by decide) (by decide) (by decide) (by decide)).2,
    (skip_hosts_drops_substring_tokens "cloud1" "cloud10,!cloud1,other" "!cloud1"
      (by decide) (by decide) (by decide) (by decide)).2⟩

end OvaSpec

namespace OvaSpec

/-- A rule whose `hosts` is `'ALL'` or absent makes `_skip_playbook` answer
`(None, None)` for its unit. -/
theorem skip_playbook_all_none (sl : SkipList) (u : String) (lim : Option String)
    (r : SkipRule) (hl : sl.lookup u = some r)
    (hh : r.hosts = some "ALL" ∨ r.hosts = none) :
    skip_playbook (some sl) u lim = (none, none) := by
  have hne : sl.isEmpty = false := by
    cases sl with
    | nil => simp [List.lookup] at hl
    | cons a l => rfl
  have hsh : skip_hosts r.hosts lim = none := by
    rcases hh with h | h <;> simp [h, skip_hosts]
  simp [skip_playbook, hne, hl, hsh, pyTruthyStr]

/-- Units whose play name is skip-ALL contribute nothing to the dispatch
loop: dropping their playbooks leaves records, calls and identifier
numbering unchanged. -/
theorem dispatch_skip_all_filter {ρ : Type} (env : Env ρ) (sl : SkipList)
    (lim : Option String) (u : String) (r : SkipRule)
    (hl : sl.lookup u = some r) (hh : r.hosts = some "ALL" ∨ r.hosts = none) :
    ∀ (playbooks : List String) (k : Nat),
      dispatch env (some sl) lim playbooks k =
        dispatch env (some sl) lim
          (playbooks.filter (fun p => !(play_name p == u))) k := by
  intro playbooks
  induction playbooks with
  | nil => intro k; rfl
  | cons p rest ih =>
    intro k
    by_cases hp : play_name p = u
    · have hskip : skip_playbook (some sl) (play_name p) lim = (none, none) := by
        rw [hp]; exact skip_playbook_all_none sl u lim r hl hh
      have hstep : dispatch env (some sl) lim (p :: rest) k =
          dispatch env (some sl) lim rest k := by
        simp [dispatch, hskip, pyTruthyStr]
      have hfilter : (p :: rest).filter (fun q => !(play_name q == u)) =
          rest.filter (fun q => !(play_name q == u)) := by
        simp [List.filter_cons, hp]
      rw [hstep, hfilter]
      exact ih k
    · have hbeq : (!(play_name p == u)) = true := by simp [hp]
      have hfilter : (p :: rest).filter (fun q => !(play_name q == u)) =
          p :: rest.filter (fun q => !(play_name q == u)) := by
        simp [List.filter_cons, hbeq]
      rw [hfilter]
      cases hexec : pyTruthyStr (skip_playbook (some sl) (play_name p) lim).1 with
      | true => simp only [dispatch, hexec, if_true, ite_true, ih (k + 1)]
      | false => simp only [dispatch, hexec, Bool.false_eq_true, if_false,
          ite_false, ih k]

/-- No engine call of the dispatch loop targets a skip-ALL unit. -/
theorem dispatch_skip_all_no_call {ρ : Type} (env : Env ρ) (sl : SkipList)
    (lim : Option String) (u : String) (r : SkipRule)
    (hl : sl.lookup u = some r) (hh : r.hosts = some "ALL" ∨ r.hosts = none) :
    ∀ (playbooks : List String) (k : Nat) (pb : String) (hs : Option String),
      (pb, hs) ∈ (dispatch env (some sl) lim playbooks k).2 → play_name pb ≠ u := by
  intro playbooks
  induction playbooks with
  | nil => intro k pb hs hmem; simp [dispatch] at hmem
  | cons p rest ih =>
    intro k pb hs hmem
    by_cases hp : play_name p = u
    · have hskip : skip_playbook (some sl) (play_name p) lim = (none, none) := by
        rw [hp]; exact skip_playbook_all_none sl u lim r hl hh
      simp only [dispatch, hskip, pyTruthyStr, Bool.false_eq_true, if_false,
        ite_false] at hmem
      exact ih k pb hs hmem
    · cases hexec : pyTruthyStr (skip_playbook (some sl) (play_name p) lim).1 with
      | true =>
        simp only [dispatch, hexec, if_true, ite_true, List.mem_cons] at hmem
        rcases hmem with heq | hmem
        · cases heq; simpa using hp
        · exact ih (k + 1) pb hs hmem
      | false =>
        simp only [dispatch, hexec, Bool.false_eq_true, if_false, ite_false] at hmem
        exact ih k pb hs hmem

/-- Claim C2 (confirmed): for a skip rule whose `hosts` is the literal
`'ALL'` (or absent), and any user host limit, the named unit is omitted:
the dispatch loop neither invokes the engine for it nor appends a run
record for it (its playbooks can be dropped without changing anything),
and `run_validations` returns the records of the remaining units only. -/
theorem run_validations_skip_all_omits_unit {ρ : Type} (env : Env ρ) (sl : SkipList)
    (lim : Option String) (u : String) (r : SkipRule) (playbooks : List String)
    (k : Nat) (dir : String)
    (hl : sl.lookup u = some r) (hh : r.hosts = some "ALL" ∨ r.hosts = none) :
    dispatch env (some sl) lim playbooks k =
      dispatch env (some sl) lim (playbooks.filter (fun p => !(play_name p == u))) k
    ∧ (∀ pb hs, (pb, hs) ∈ (dispatch env (some sl) lim playbooks k).2 →
        play_name pb ≠ u)
    ∧ (∀ v g pbs, select_playbooks env.catalog v g dir = .ok pbs →
        run_validations env v g dir lim true (some sl) =
          .ok (.inl (dispatch env (some sl) lim
            (pbs.filter (fun p => !(play_name p == u))) 0).1)) := by
  refine ⟨dispatch_skip_all_filter env sl lim u r hl hh playbooks k,
    fun pb hs => dispatch_skip_all_no_call env sl lim u r hl hh playbooks k pb hs,
    fun v g pbs hsel => ?_⟩
  simp only [run_validations, hsel, if_true, ite_true]
  rw [← dispatch_skip_all_filter env sl lim u r hl hh pbs 0]

/-- Witness for `run_validations_skip_all_omits_unit`: unit `xyz` carries a
skip-ALL rule; in the two-playbook list `[xyz.yaml, foo.yaml]` only `foo`
survives. -/
theorem run_validations_skip_all_omits_unit_witness :
    ([("xyz", ({ hosts := some "ALL" } : SkipRule))] : SkipList).lookup "xyz"
        = some ({ hosts := some "ALL" } : SkipRule)
    ∧ (({ hosts := some "ALL" } : SkipRule).hosts = some "ALL"
        ∨ ({ hosts := some "ALL" } : SkipRule).hosts = none)
    ∧ (dispatch sampleEnv (some [("xyz", { hosts := some "ALL" })])
          (some "c1,c2") ["xyz.yaml", "foo.yaml"] 0 =
        dispatch sampleEnv (some [("xyz", { hosts := some "ALL" })]) (some "c1,c2")
          (["xyz.yaml", "foo.yaml"].filter (fun p => !(play_name p == "xyz"))) 0
      ∧ (∀ pb hs, (pb, hs) ∈ (dispatch sampleEnv
            (some [("xyz", { hosts := some "ALL" })]) (some "c1,c2")
            ["xyz.yaml", "foo.yaml"] 0).2 → play_name pb ≠ "xyz")
      ∧ (∀ v g pbs, select_playbooks sampleEnv.catalog v g "d" = .ok pbs →
          run_validations sampleEnv v g "d" (some "c1,c2") true
              (some [("xyz", { hosts := some "ALL" })]) =
            .ok (.inl (dispatch sampleEnv (some [("xyz", { hosts := some "ALL" })])
              (some "c1,c2") (pbs.filter (fun p => !(play_name p == "xyz"))) 0).1))) :=
  ⟨by decide, Or.inl (by decide),
    run_validations_skip_all_omits_unit sampleEnv
      [("xyz", { hosts := some "ALL" })] (some "c1,c2") "xyz"
      { hosts := some "ALL" } ["xyz.yaml", "foo.yaml"] 0 "d"
      (by decide) (Or.inl (by decide))⟩

end OvaSpec

namespace OvaSpec

/-- Claim C3 (corrected), counterexample: catalog has unit `alpha` (no
groups) and unit `beta` (group `g`). Requesting names `[alpha]` together
with groups `[g]` selects only `beta.yaml`: the explicitly requested
`alpha` is not selected, so the selection is not the union the claim
states. -/
theorem select_union_counterexample :
    select_playbooks [⟨"alpha", []⟩, ⟨"beta", ["g"]⟩]
        (some ["alpha"]) (some ["g"]) "d" = .ok ["beta.yaml"]
    ∧ spec_select_union [⟨"alpha", []⟩, ⟨"beta", ["g"]⟩] ["alpha"] ["g"]
        = ["alpha.yaml", "beta.yaml"]
    ∧ select_playbooks [⟨"alpha", []⟩, ⟨"beta", ["g"]⟩]
        (some ["alpha"]) (some ["g"]) "d"
        ≠ .ok (spec_select_union [⟨"alpha", []⟩, ⟨"beta", ["g"]⟩] ["alpha"] ["g"])
    ∧ "alpha.yaml" ∉ ["beta.yaml"] := by
  refine ⟨by decide, by decide, by decide, by decide⟩

/-- Claim C3 (amended): when a non-empty group list is supplied, the group
list alone determines the selection — the selected units are exactly those
whose groups intersect the requested groups, and the explicit name list is
ignored entirely. -/
theorem select_group_takes_precedence (catalog : Catalog)
    (v g : Option (List String)) (dir : String) (hg : pyTruthyList g = true) :
    select_playbooks catalog v g dir =
        .ok ((parse_all_validations_on_disk catalog (g.getD [])).map
          (fun u => u.id ++ ".yaml"))
    ∧ select_playbooks catalog v g dir = select_playbooks catalog none g dir := by
  constructor
  · simp [select_playbooks, hg]
  · simp [select_playbooks, hg]

/-- Witness for `select_group_takes_precedence` at the counterexample's
catalog and request. -/
theorem select_group_takes_precedence_witness :
    pyTruthyList (some ["g"]) = true
    ∧ (select_playbooks [⟨"alpha", []⟩, ⟨"beta", ["g"]⟩]
          (some ["alpha"]) (some ["g"]) "d" =
        .ok ((parse_all_validations_on_disk [⟨"alpha", []⟩, ⟨"beta", ["g"]⟩]
          ((some ["g"]).getD [])).map (fun u => u.id ++ ".yaml"))
      ∧ select_playbooks [⟨"alpha", []⟩, ⟨"beta", ["g"]⟩]
          (some ["alpha"]) (some ["g"]) "d" =
        select_playbooks [⟨"alpha", []⟩, ⟨"beta", ["g"]⟩] none (some ["g"]) "d") :=
  ⟨by decide,
    select_group_takes_precedence [⟨"alpha", []⟩, ⟨"beta", ["g"]⟩]
      (some ["alpha"]) (some ["g"]) "d" (by decide)⟩

end OvaSpec

namespace OvaSpec

/-- Claim C4 (confirmed): an engine invocation returning a non-zero code
never makes `run_validations` raise — the only errors it can return are the
selection errors — and an executed unit's outcome (whatever its return
code) is recorded as one result row, after which the loop continues with
the remaining units. -/
theorem run_validations_engine_failure_recorded {ρ : Type} (env : Env ρ)
    (v g : Option (List String)) (dir : String) (lim : Option String)
    (async : Bool) (sl : Option SkipList) (p : String) (rest : List String)
    (k : Nat)
    (hexec : pyTruthyStr (skip_playbook sl (play_name p) lim).1 = true) :
    (∀ e, run_validations env v g dir lim async sl = .error e ↔
        select_playbooks env.catalog v g dir = .error e)
    ∧ (dispatch env sl lim (p :: rest) k).1 =
        mkRecord env p (skip_playbook sl (play_name p) lim).2 k
          :: (dispatch env sl lim rest (k + 1)).1 := by
  constructor
  · intro e
    cases hsel : select_playbooks env.catalog v g dir with
    | error e0 => simp [run_validations, hsel]
    | ok pbs =>
      cases async <;> simp [run_validations, hsel]
  · simp [dispatch, hexec]

/-- Witness for `run_validations_engine_failure_recorded`: `sampleEnv`'s
engine always returns code 2; the unit `fail.yaml` is executed, recorded
with `rc_code = 2`, and `next.yaml` is still processed. -/
theorem run_validations_engine_failure_recorded_witness :
    pyTruthyStr (skip_playbook none (play_name "fail.yaml") none).1 = true
    ∧ ((∀ e, run_validations sampleEnv (some ["foo"]) none "d" none true none
          = .error e ↔
        select_playbooks sampleEnv.catalog (some ["foo"]) none "d" = .error e)
      ∧ (dispatch sampleEnv none none ("fail.yaml" :: ["next.yaml"]) 0).1 =
          mkRecord sampleEnv "fail.yaml"
              (skip_playbook none (play_name "fail.yaml") none).2 0
            :: (dispatch sampleEnv none none ["next.yaml"] (0 + 1)).1) :=
  ⟨by decide,
    run_validations_engine_failure_recorded sampleEnv (some ["foo"]) none "d"
      none true none "fail.yaml" ["next.yaml"] 0 (by decide)⟩

/-- Claim C6 (confirmed): with neither a validation-name list nor a group
list (`None` or empty either way), `run_validations` raises the
`RuntimeError` whose message is exactly "No validations found". -/
theorem run_validations_no_selection_raises {ρ : Type} (env : Env ρ)
    (dir : String) (lim : Option String) (async : Bool) (sl : Option SkipList)
    (v g : Option (List String))
    (hv : pyTruthyList v = false) (hg : pyTruthyList g = false) :
    run_validations env v g dir lim async sl = .error .noValidations
    ∧ RunError.message .noValidations = "No validations found" := by
  constructor
  · simp [run_validations, select_playbooks, hv, hg]
  · rfl

/-- Witness for `run_validations_no_selection_raises` at `v = g = None`. -/
theorem run_validations_no_selection_raises_witness :
    pyTruthyList none = false
    ∧ (run_validations sampleEnv none none "d" none false none
          = .error .noValidations
      ∧ RunError.message .noValidations = "No validations found") :=
  ⟨by decide,
    run_validations_no_selection_raises sampleEnv "d" none false none none none
      (by decide) (by decide)⟩

/-- The dispatch loop never consults the Result Aggregator: its output is
unchanged under any replacement of `getResults`. -/
theorem dispatch_getResults_irrelevant {ρ : Type} (cat : Catalog)
    (engine : String → Option String → String × Int × String)
    (ug : Nat → String) (gr gr' : List String → List ρ)
    (sl : Option SkipList) (lim : Option String) :
    ∀ (pbs : List String) (k : Nat),
      dispatch ⟨cat, engine, ug, gr⟩ sl lim pbs k =
        dispatch ⟨cat, engine, ug, gr'⟩ sl lim pbs k := by
  intro pbs
  induction pbs with
  | nil => intro k; rfl
  | cons p rest ih =>
    intro k
    cases hexec : pyTruthyStr (skip_playbook sl (play_name p) lim).1 with
    | true => simp only [dispatch, hexec, if_true, ite_true, mkRecord, ih (k + 1)]
    | false => simp only [dispatch, hexec, Bool.false_eq_true, if_false,
        ite_false, ih k]

/-- Claim C8 (confirmed): once selection succeeds, the async run returns
the raw run-record list as dispatched — independently of the Result
Aggregator, which is never consulted — while the sync run returns exactly
`get_results` applied to the executed units' generated run identifiers. -/
theorem run_validations_async_vs_sync {ρ : Type} (cat : Catalog)
    (engine : String → Option String → String × Int × String)
    (ug : Nat → String) (gr gr' : List String → List ρ)
    (v g : Option (List String)) (dir : String) (lim : Option String)
    (sl : Option SkipList) (pbs : List String)
    (hsel : select_playbooks cat v g dir = .ok pbs) :
    run_validations ⟨cat, engine, ug, gr⟩ v g dir lim true sl =
        .ok (.inl (dispatch ⟨cat, engine, ug, gr⟩ sl lim pbs 0).1)
    ∧ run_validations ⟨cat, engine, ug, gr⟩ v g dir lim false sl =
        .ok (.inr (gr (((dispatch ⟨cat, engine, ug, gr⟩ sl lim pbs 0).1).map
          (fun r => r.uuid))))
    ∧ run_validations ⟨cat, engine, ug, gr⟩ v g dir lim true sl =
        run_validations ⟨cat, engine, ug, gr'⟩ v g dir lim true sl := by
  refine ⟨by simp [run_validations, hsel], by simp [run_validations, hsel], ?_⟩
  simp only [run_validations, hsel,
    dispatch_getResults_irrelevant cat engine ug gr gr' sl lim pbs 0]
  simp

/-- Witness for `run_validations_async_vs_sync` at `sampleEnv`'s components
(with the aggregator swapped for a constant one in the third conjunct). -/
theorem run_validations_async_vs_sync_witness :
    select_playbooks [⟨"foo", ["g"]⟩] (some ["foo"]) none "d" = .ok ["foo.yaml"]
    ∧ (run_validations (⟨[⟨"foo", ["g"]⟩], fun p _ => (p, 2, "failed"),
          fun k => "uuid" ++ toString k, fun l => [l.length]⟩ : Env Nat)
          (some ["foo"]) none "d" none true none =
        .ok (.inl (dispatch (⟨[⟨"foo", ["g"]⟩], fun p _ => (p, 2, "failed"),
          fun k => "uuid" ++ toString k, fun l => [l.length]⟩ : Env Nat)
          none none ["foo.yaml"] 0).1)
      ∧ run_validations (⟨[⟨"foo", ["g"]⟩], fun p _ => (p, 2, "failed"),
          fun k => "uuid" ++ toString k, fun l => [l.length]⟩ : Env Nat)
          (some ["foo"]) none "d" none false none =
        .ok (.inr ((fun l => [l.length])
          (((dispatch (⟨[⟨"foo", ["g"]⟩], fun p _ => (p, 2, "failed"),
            fun k => "uuid" ++ toString k, fun l => [l.length]⟩ : Env Nat)
            none none ["foo.yaml"] 0).1).map (fun r => r.uuid))))
      ∧ run_validations (⟨[⟨"foo", ["g"]⟩], fun p _ => (p, 2, "failed"),
          fun k => "uuid" ++ toString k, fun l => [l.length]⟩ : Env Nat)
          (some ["foo"]) none "d" none true none =
        run_validations (⟨[⟨"foo", ["g"]⟩], fun p _ => (p, 2, "failed"),
          fun k => "uuid" ++ toString k, fun _ => [7]⟩ : Env Nat)
          (some ["foo"]) none "d" none true none) :=
  ⟨by decide,
    run_validations_async_vs_sync [⟨"foo", ["g"]⟩] (fun p _ => (p, 2, "failed"))
      (fun k => "uuid" ++ toString k) (fun l => [l.length]) (fun _ => [7])
      (some ["foo"]) none "d" none none ["foo.yaml"] (by decide)⟩

/-- Claim C9 (confirmed): `get_status` raises its missing-identifier error
exactly when neither `validation_id` nor `uuid` is supplied; with either
one supplied it returns a result. -/
theorem get_status_requires_identifier (store : LogStore)
    (vid uu : Option String) (st : String) :
    (get_status store vid uu st = .error .missingId ↔
      (pyTruthyStr vid = false ∧ pyTruthyStr uu = false))
    ∧ (isError (get_status store vid uu st) = true ↔
      (pyTruthyStr vid = false ∧ pyTruthyStr uu = false)) := by
  cases hv : pyTruthyStr vid <;> cases hu : pyTruthyStr uu <;>
    simp [get_status, isError, hv, hu]

end OvaSpec

namespace OvaSpec

/-- The number of resolved playbooks equals the number of catalog
identifiers that appear among the requested names. -/
theorem get_validations_playbook_length (catalog : Catalog) (names : List String) :
    (get_validations_playbook catalog names).length =
      ((catalog.map VUnit.id).filter (fun i => names.contains i)).length := by
  simp only [get_validations_playbook, List.filter_map, List.length_map]
  rfl

/-- With duplicate-free names and duplicate-free catalog identifiers, the
resolved count equals the requested count exactly when every requested name
matches a catalog identifier. -/
theorem resolved_count_iff (catalog : Catalog) (names : List String)
    (hids : (catalog.map VUnit.id).Nodup) (hnames : names.Nodup) :
    (((catalog.map VUnit.id).filter (fun i => names.contains i)).length
        = names.length)
      ↔ ∀ n ∈ names, n ∈ catalog.map VUnit.id := by
  classical
  have hfn : ((catalog.map VUnit.id).filter (fun i => names.contains i)).Nodup :=
    hids.filter _
  have h1 : ((catalog.map VUnit.id).filter (fun i => names.contains i)).toFinset =
      (catalog.map VUnit.id).toFinset ∩ names.toFinset := by
    rw [List.toFinset_filter]
    ext x
    simp [List.mem_toFinset, Finset.mem_filter, Finset.mem_inter]
  have hcard1 : ((catalog.map VUnit.id).filter (fun i => names.contains i)).length =
      ((catalog.map VUnit.id).toFinset ∩ names.toFinset).card := by
    rw [← h1, List.toFinset_card_of_nodup hfn]
  have hcard2 : names.toFinset.card = names.length :=
    List.toFinset_card_of_nodup hnames
  constructor
  · intro hlen n hn
    have hcc : ((catalog.map VUnit.id).toFinset ∩ names.toFinset).card =
        names.toFinset.card := by rw [← hcard1, hlen, hcard2]
    have hSS : (catalog.map VUnit.id).toFinset ∩ names.toFinset = names.toFinset :=
      Finset.eq_of_subset_of_card_le Finset.inter_subset_right (le_of_eq hcc.symm)
    have hsub : names.toFinset ⊆ (catalog.map VUnit.id).toFinset :=
      Finset.inter_eq_right.mp hSS
    exact List.mem_toFinset.mp (hsub (List.mem_toFinset.mpr hn))
  · intro hall
    have hsub : names.toFinset ⊆ (catalog.map VUnit.id).toFinset := fun x hx =>
      List.mem_toFinset.mpr (hall x (List.mem_toFinset.mp hx))
    have hSS : (catalog.map VUnit.id).toFinset ∩ names.toFinset = names.toFinset :=
      Finset.inter_eq_right.mpr hsub
    rw [hcard1, hSS, hcard2]

/-- Claim C5 (corrected), counterexample: the catalog contains the single
unit `foo`, and the request repeats the name `foo` twice. Every requested
name has a matching unit, yet the selector raises — and the enumerated set
difference in the error is empty. -/
theorem select_duplicate_names_counterexample :
    (∀ n ∈ (["foo", "foo"] : List String),
      ∃ u ∈ ([⟨"foo", []⟩] : Catalog), u.id = n)
    ∧ select_playbooks [⟨"foo", []⟩] (some ["foo", "foo"]) none "d"
        = .error (.notFound [] "d") := by
  refine ⟨by decide, by decide⟩

/-- Claim C5 (amended): with a non-empty, duplicate-free requested-name
list (and duplicate-free catalog identifiers, the catalog invariant), the
selector raises exactly when at least one requested name has no matching
unit; any raised error names the search directory and enumerates exactly
the set difference requested-minus-resolved. With duplicated requested
names it can raise even though every name matches
(see the counterexample). -/
theorem select_names_mismatch_amended (catalog : Catalog) (names : List String)
    (dir : String) (hne : names ≠ []) (hnames : names.Nodup)
    (hids : (catalog.map VUnit.id).Nodup) :
    (isError (select_playbooks catalog (some names) none dir) = true ↔
      ∃ n ∈ names, n ∉ catalog.map VUnit.id)
    ∧ (∀ unk d, select_playbooks catalog (some names) none dir
          = .error (.notFound unk d) →
        d = dir ∧ ∀ x, x ∈ unk ↔ (x ∈ names ∧
          x ∉ (get_validations_playbook catalog names).map play_name)) := by
  classical
  have htr : pyTruthyList (some names) = true := by
    simp [pyTruthyList, List.isEmpty_iff, hne]
  have hcond_iff :
      ((get_validations_playbook catalog names).isEmpty
        || !(names.length = (get_validations_playbook catalog names).length)) = true
      ↔ names.length ≠ (get_validations_playbook catalog names).length := by
    cases hpe : (get_validations_playbook catalog names).isEmpty with
    | true =>
      have hnil : get_validations_playbook catalog names = [] := by
        simpa [List.isEmpty_iff] using hpe
      rw [hnil]
      have : names.length ≠ 0 := by simpa using hne
      simp [this]
    | false => simp
  have hmatch_iff : names.length = (get_validations_playbook catalog names).length
      ↔ ∀ n ∈ names, n ∈ catalog.map VUnit.id := by
    rw [get_validations_playbook_length catalog names]
    rw [eq_comm]
    exact resolved_count_iff catalog names hids hnames
  by_cases hcond : ((get_validations_playbook catalog names).isEmpty
      || !(names.length = (get_validations_playbook catalog names).length)) = true
  · have hsel : select_playbooks catalog (some names) none dir =
        .error (.notFound
          (pySetDiff names ((get_validations_playbook catalog names).map play_name))
          dir) := by
      simp [select_playbooks, pyTruthyList, List.isEmpty_iff, hne, hcond]
    constructor
    · rw [hsel]
      have hx : ∃ n ∈ names, n ∉ catalog.map VUnit.id := by
        have hneq := hcond_iff.mp hcond
        have hnall := (not_iff_not.mpr hmatch_iff).mp hneq
        push_neg at hnall
        exact hnall
      exact iff_of_true rfl hx
    · intro unk d heq
      rw [hsel] at heq
      injection heq with heq'
      injection heq' with h1 h2
      subst h1; subst h2
      refine ⟨rfl, fun x => ?_⟩
      simp [pySetDiff, List.mem_dedup, List.mem_filter]
  · have hlen : names.length = (get_validations_playbook catalog names).length := by
      by_contra hno
      exact hcond (hcond_iff.mpr hno)
    have hcf : ((get_validations_playbook catalog names).isEmpty
        || !(names.length = (get_validations_playbook catalog names).length))
          = false := by
      cases hb : ((get_validations_playbook catalog names).isEmpty
          || !(names.length = (get_validations_playbook catalog names).length)) with
      | true => exact absurd hb hcond
      | false => rfl
    have hsel : select_playbooks catalog (some names) none dir =
        .ok (get_validations_playbook catalog names) := by
      simp [select_playbooks, pyTruthyList, List.isEmpty_iff, hne, hcf]
    constructor
    · rw [hsel]
      have hall := hmatch_iff.mp hlen
      apply iff_of_false
      · simp [isError]
      · rintro ⟨n, hn, hnot⟩
        exact hnot (hall n hn)
    · intro unk d heq
      rw [hsel] at heq
      cases heq

/-- Witness for `select_names_mismatch_amended`: catalog `[foo]`, requested
names `[foo, bar]` — `bar` is unmatched, so the selector errs. -/
theorem select_names_mismatch_amended_witness :
    (["foo", "bar"] : List String) ≠ []
    ∧ (["foo", "bar"] : List String).Nodup
    ∧ (([⟨"foo", []⟩] : Catalog).map VUnit.id).Nodup
    ∧ ((isError (select_playbooks [⟨"foo", []⟩] (some ["foo", "bar"]) none "d")
          = true ↔
        ∃ n ∈ (["foo", "bar"] : List String),
          n ∉ ([⟨"foo", []⟩] : Catalog).map VUnit.id)
      ∧ (∀ unk d, select_playbooks [⟨"foo", []⟩] (some ["foo", "bar"]) none "d"
            = .error (.notFound unk d) →
          d = "d" ∧ ∀ x, x ∈ unk ↔ (x ∈ (["foo", "bar"] : List String) ∧
            x ∉ (get_validations_playbook [⟨"foo", []⟩] ["foo", "bar"]).map
              play_name))) :=
  ⟨by decide, by decide, by decide,
    select_names_mismatch_amended [⟨"foo", []⟩] ["foo", "bar"] "d"
      (by decide) (by decide) (by decide)⟩

end OvaSpec

namespace OvaSpec

/-- Membership characterization of the `get_status` row list: a row
`(n, h, s, p)` occurs exactly when `s` is the status filter and some valid
log has a task named `n` whose *task-level* status equals the filter and
whose host map contains `(h, p)` — with no condition at all on the per-host
payload `p`. -/
theorem mem_status_rows (logs : List VLog) (st : String) (n h s : String)
    (p : HostResult) :
    (n, h, s, p) ∈ status_rows logs st ↔
      (s = st ∧ ∃ log ∈ logs, log.valid = true ∧ ∃ task ∈ log.tasks,
        task.status = st ∧ task.name = n ∧ (h, p) ∈ task.hosts) := by
  simp only [status_rows, List.mem_flatMap, List.mem_filter, List.mem_map]
  constructor
  · rintro ⟨log, ⟨hlog, hval⟩, task, ⟨htask, hst⟩, x, hx, heq⟩
    have hst' : task.status = st := by simpa using hst
    have h1 : task.name = n := congrArg (fun q => q.1) heq
    have h2 : x.1 = h := congrArg (fun q => q.2.1) heq
    have h3 : task.status = s := congrArg (fun q => q.2.2.1) heq
    have h4 : x.2 = p := congrArg (fun q => q.2.2.2) heq
    refine ⟨by rw [← h3, hst'], log, hlog, hval, task, htask, hst', h1, ?_⟩
    rw [← h2, ← h4]
    exact hx
  · rintro ⟨hs, log, hlog, hval, task, htask, hst, hname, hmem⟩
    exact ⟨log, ⟨hlog, hval⟩, task, ⟨htask, by simp [hst]⟩, (h, p), hmem,
      by simp [hname, hst, hs]⟩

/-- Claim C7 (corrected), counterexample: `sampleLog` holds one task with
task-level status `FAILED` and two hosts, `h1` whose per-host outcome is
`FAILED` and `h2` whose per-host outcome is `PASSED`. `get_status` emits a
row for *both* hosts (the claim says `h2` contributes no row), so its rows
differ from the per-host-filtered rows the claim describes. -/
theorem get_status_per_host_counterexample :
    get_status sampleStore (some "foo") none "FAILED"
        = .ok (["name", "host", "status", "task_data"],
          [("t", "h1", "FAILED", ⟨"FAILED", "p1"⟩),
           ("t", "h2", "FAILED", ⟨"PASSED", "p2"⟩)])
    ∧ spec_status_rows [sampleLog] "FAILED"
        = [("t", "h1", "FAILED", ⟨"FAILED", "p1"⟩)]
    ∧ status_rows [sampleLog] "FAILED" ≠ spec_status_rows [sampleLog] "FAILED"
    ∧ ("t", "h2", "FAILED", (⟨"PASSED", "p2"⟩ : HostResult))
        ∈ status_rows [sampleLog] "FAILED"
    ∧ ("PASSED" : String) ≠ "FAILED" := by
  refine ⟨by decide, by decide, by decide, by decide, by decide⟩

/-- Claim C7 (amended): for a valid-format log set, `get_status` returns
one row per task-and-host pair of every task whose *task-level* status
equals the filter; every host of such a task contributes a row carrying the
task-level status and the raw per-host payload, regardless of that host's
own outcome. -/
theorem get_status_rows_amended (store : LogStore) (vid uu : Option String)
    (st : String) (cols : List String) (rows : List StatusRow)
    (hvid : pyTruthyStr vid = true)
    (hok : get_status store vid uu st = .ok (cols, rows)) :
    rows = status_rows (store.byValidation (vid.getD "")) st
    ∧ ∀ n h s p, ((n, h, s, p) ∈ rows ↔
        (s = st ∧ ∃ log ∈ store.byValidation (vid.getD ""), log.valid = true ∧
          ∃ task ∈ log.tasks, task.status = st ∧ task.name = n ∧
            (h, p) ∈ task.hosts)) := by
  have hrows : rows = status_rows (store.byValidation (vid.getD "")) st := by
    simp only [get_status, hvid, if_true, ite_true] at hok
    injection hok with hok'
    exact (congrArg (fun q => q.2) hok').symm
  refine ⟨hrows, fun n h s p => ?_⟩
  rw [hrows]
  exact mem_status_rows (store.byValidation (vid.getD "")) st n h s p

/-- Witness for `get_status_rows_amended` at `sampleStore`. -/
theorem get_status_rows_amended_witness :
    pyTruthyStr (some "foo") = true
    ∧ get_status sampleStore (some "foo") none "FAILED"
        = .ok (["name", "host", "status", "task_data"],
          [("t", "h1", "FAILED", ⟨"FAILED", "p1"⟩),
           ("t", "h2", "FAILED", ⟨"PASSED", "p2"⟩)])
    ∧ ([("t", "h1", "FAILED", ⟨"FAILED", "p1"⟩),
        ("t", "h2", "FAILED", ⟨"PASSED", "p2"⟩)] : List StatusRow)
        = status_rows (sampleStore.byValidation ((some "foo").getD "")) "FAILED"
    ∧ ∀ n h s p, (((n, h, s, p) : StatusRow) ∈
        ([("t", "h1", "FAILED", ⟨"FAILED", "p1"⟩),
          ("t", "h2", "FAILED", ⟨"PASSED", "p2"⟩)] : List StatusRow) ↔
        (s = "FAILED" ∧ ∃ log ∈ sampleStore.byValidation ((some "foo").getD ""),
          log.valid = true ∧ ∃ task ∈ log.tasks, task.status = "FAILED" ∧
            task.name = n ∧ (h, p) ∈ task.hosts)) :=
  ⟨by decide, by decide,
    (get_status_rows_amended sampleStore (some "foo") none "FAILED"
      ["name", "host", "status", "task_data"]
      [("t", "h1", "FAILED", ⟨"FAILED", "p1"⟩),
       ("t", "h2", "FAILED", ⟨"PASSED", "p2"⟩)]
      (by decide) (by decide)).1,
    (get_status_rows_amended sampleStore (some "foo") none "FAILED"
      ["name", "host", "status", "task_data"]
      [("t", "h1", "FAILED", ⟨"FAILED", "p1"⟩),
       ("t", "h2", "FAILED", ⟨"PASSED", "p2"⟩)]
      (by decide) (by decide)).2⟩

end OvaSpec
